import Mathlib

/-!
# GoChat: presence registry and inline command dispatch

A shallow embedding of `src/server/user.go` and `src/server/server.go`.

* A Go `string` is a sequence of bytes (`len` and slicing count bytes), so it
  is embedded as `List UInt8`; source literals are written with `utf8`.
* A `*User` is a pointer; the heap of `User` structs is `Server.heap`.  The
  channel `Ch` and the socket `conn` of a user are identified with the pointer.
* `OnlineMap map[string]*User` is an association list with distinct keys
  (`AList`): `m[k] = v` is `insert`, `delete(m, k)` is `erase`, `m[k]` with the
  comma-ok form is `lookup`.  Go ranges over a map in an unspecified order; the
  embedding ranges in the order of `entries`, and every statement below about a
  `range` loop is independent of that order.
* Everything the code does to the outside world (socket writes, channel sends,
  closes) is appended to `Server.trace`.
* A Go runtime panic is the error case of `Except Panic`.
* `mapLock`, the idle timer and the blocking of channel operations are not recorded.
  Each function below is one goroutine running undisturbed; the one place where two
  goroutines are interleaved is the model of two `rename|` dispatches, cut where the
  source takes and releases `mapLock`.
-/

namespace GoChat

/-- A Go string: a sequence of bytes. -/
abbrev GoString := List UInt8

/-- The bytes of a Go string literal (Go source is UTF-8). -/
def utf8 (s : String) : GoString := s.data.flatMap String.utf8EncodeChar

/-- The byte `|`, the separator `"|"` handed to `strings.Split`. -/
def pipe : UInt8 := 124

/-- Go `strings.Split(s, sep)` for a one-byte separator: the substrings of `s` between
the occurrences of `sep`, one more than there are separators. -/
def strings_Split : GoString → UInt8 → List GoString
  | [], _ => [[]]
  | c :: cs, sep =>
    if c = sep then [] :: strings_Split cs sep
    else
      match strings_Split cs sep with
      | [] => [[c]]
      | w :: ws => (c :: w) :: ws

/-- A Go runtime panic. -/
inductive Panic where
  | indexOutOfRange (index length : Nat)
  deriving DecidableEq, Repr

/-- The index expression `xs[i]` on a slice of strings. -/
def index (xs : List GoString) (i : Nat) : Except Panic GoString :=
  match xs[i]? with
  | some x => .ok x
  | none => .error (.indexOutOfRange i xs.length)

/-- A `*User`. -/
abbrev UserPtr := Nat

/-- The fields `Name` and `Addr` of `type User struct`. -/
structure User where
  Name : GoString
  Addr : GoString
  deriving DecidableEq, Repr

/-- What the server does to the outside world. -/
inductive Effect where
  /-- A call `user.conn.Write(data)`. -/
  | connWrite (user : UserPtr) (data : GoString)
  /-- A send `server.Message <- msg`. -/
  | messageSend (msg : GoString)
  /-- A send `cli.Ch <- msg`. -/
  | chSend (user : UserPtr) (msg : GoString)
  /-- The statement `close(user.Ch)`. -/
  | closeCh (user : UserPtr)
  /-- The statement `close(isLive)` of the handler of `user`. -/
  | closeIsLive (user : UserPtr)
  /-- The statement `conn.Close()` on the socket of `user`. -/
  | connClose (user : UserPtr)
  /-- The send `isLive <- true` of the reader goroutine of `user`. -/
  | isLiveSend (user : UserPtr)
  deriving DecidableEq, Repr

/-- The `Server` struct together with the heap of users and the trace of effects. -/
structure Server where
  Ip : GoString
  Port : Int
  OnlineMap : AList (fun _ : GoString => UserPtr)
  heap : UserPtr → User
  next : UserPtr
  trace : List Effect

/-- Function `NewServer(ip, port)`: an empty `OnlineMap`. -/
def NewServer (ip : GoString) (port : Int) : Server where
  Ip := ip
  Port := port
  OnlineMap := ∅
  heap := fun _ => ⟨[], []⟩
  next := 0
  trace := []

/-- Appends one effect to the trace. -/
def emit (s : Server) (e : Effect) : Server :=
  { s with trace := s.trace ++ [e] }

/-- Method `server.BroadCast(user, msg)`. -/
def BroadCast (s : Server) (user : UserPtr) (msg : GoString) : Server :=
  let sendMsg := utf8 "[" ++ (s.heap user).Addr ++ utf8 "]" ++ (s.heap user).Name ++ utf8 ":" ++ msg
  emit s (.messageSend sendMsg)

/-- One round of the loop of `server.ListenMessager()`, for the received `msg`. -/
def ListenMessager (s : Server) (msg : GoString) : Server :=
  s.OnlineMap.entries.foldl (fun st cli => emit st (.chSend cli.2 msg)) s

/-- Function `NewUser(conn, server)`, where `userAddr` is `conn.RemoteAddr().String()`. -/
def NewUser (s : Server) (userAddr : GoString) : UserPtr × Server :=
  (s.next,
    { s with
      heap := Function.update s.heap s.next ⟨userAddr, userAddr⟩
      next := s.next + 1 })

/-- Method `user.Online()`. -/
def Online (s : Server) (user : UserPtr) : Server :=
  let s1 := { s with OnlineMap := s.OnlineMap.insert (s.heap user).Name user }
  BroadCast s1 user (utf8 "已上线")

/-- Method `user.Offline()`. -/
def Offline (s : Server) (user : UserPtr) : Server :=
  let s1 := { s with OnlineMap := s.OnlineMap.erase (s.heap user).Name }
  BroadCast s1 user (utf8 "已下线")

/-- Method `user.SendMsg(msg)`. -/
def SendMsg (s : Server) (user : UserPtr) (msg : GoString) : Server :=
  emit s (.connWrite user msg)

/-- One round of the loop of `user.ListenMessage()`, for the received `msg`. -/
def ListenMessage (s : Server) (user : UserPtr) (msg : GoString) : Server :=
  emit s (.connWrite user (msg ++ utf8 "\n"))

/-- Line 72 of `user.go`: `_, exist := user.server.OnlineMap[newName]`. -/
def renameExist (s : Server) (newName : GoString) : Bool :=
  (s.OnlineMap.lookup newName).isSome

/-- Lines 76 to 79 of `user.go`: the two map updates between `Lock` and `Unlock`. -/
def renameLocked (s : Server) (user : UserPtr) (newName : GoString) : Server :=
  { s with OnlineMap := (s.OnlineMap.erase (s.heap user).Name).insert newName user }

/-- Lines 81 and 82 of `user.go`: the assignment to `user.Name` and the acknowledgment. -/
def renameFinish (s : Server) (user : UserPtr) (newName : GoString) : Server :=
  let s1 := { s with heap := Function.update s.heap user { s.heap user with Name := newName } }
  SendMsg s1 user (utf8 "您已经更新用户名:" ++ (s1.heap user).Name ++ utf8 "\n")

/-- The local `onlineMsg` of the `who` loop, for the registered user `u`. -/
def onlineMsg (u : User) : GoString :=
  utf8 "[" ++ u.Addr ++ utf8 "]" ++ u.Name ++ utf8 ":在线...\n"

/-- Method `user.HandleMessage(msg)`.  The slices `msg[:7]` and `msg[:3]` are taken only
after the length test on their left, so they never panic. -/
def HandleMessage (s : Server) (user : UserPtr) (msg : GoString) : Except Panic Server :=
  if msg = utf8 "who" then
    .ok (s.OnlineMap.entries.foldl
      (fun st u => SendMsg st user (onlineMsg (st.heap u.2))) s)
  else if msg.length > 7 ∧ msg.take 7 = utf8 "rename|" then do
    let newName ← index (strings_Split msg pipe) 1
    if renameExist s newName then
      .ok (SendMsg s user (utf8 "当前用户名被使用\n"))
    else
      .ok (renameFinish (renameLocked s user newName) user newName)
  else if msg.length > 4 ∧ msg.take 3 = utf8 "to|" then do
    let remoteName ← index (strings_Split msg pipe) 1
    if remoteName = utf8 "" then
      .ok (SendMsg s user (utf8 "消息格式不正确，请使用\" to|userName|message\"格式。\n"))
    else
      match s.OnlineMap.lookup remoteName with
      | none => .ok (SendMsg s user (utf8 "当前用户不存在\n"))
      | some remoteUser => do
        let content ← index (strings_Split msg pipe) 2
        if content = utf8 "" then
          .ok (SendMsg s user (utf8 "无效消息，请重发\n"))
        else
          let s1 := SendMsg s remoteUser ((s.heap user).Name ++ utf8 ": " ++ content ++ utf8 "\n")
          .ok (SendMsg s1 user (utf8 "发送成功\n"))
  else
    .ok (BroadCast s user msg)

/-- The first two statements of `server.Handler(conn)`: `NewUser` and `user.Online()`. -/
def Handler_join (s : Server) (userAddr : GoString) : UserPtr × Server :=
  let r := NewUser s userAddr
  (r.1, Online r.2 r.1)

/-- One round of the reader goroutine of `server.Handler` after `conn.Read` returned
`n` bytes `buf[:n]`: `n == 0` runs `user.Offline()` and ends the goroutine, otherwise
`buf[:n-1]` is dispatched and `isLive` is signalled. -/
def Handler_read (s : Server) (user : UserPtr) (buf : GoString) : Except Panic Server :=
  if buf.length = 0 then .ok (Offline s user)
  else do
    let s1 ← HandleMessage s user (buf.take (buf.length - 1))
    .ok (emit s1 (.isLiveSend user))

/-- The `case <-timer.C` branch of the `select` of `server.Handler`. -/
def Handler_timeout (s : Server) (user : UserPtr) : Server :=
  let s1 := SendMsg s user (utf8 "你已超时，已被踢出服务器")
  let s2 := emit s1 (.closeCh user)
  let s3 := emit s2 (.closeIsLive user)
  let s4 := { s3 with OnlineMap := s3.OnlineMap.erase (s3.heap user).Name }
  emit s4 (.connClose user)

/-! ## Interleaving of two `rename|` dispatches

`HandleMessage` reads `OnlineMap[newName]` (line 72) before it takes `mapLock`
(line 76), and assigns `user.Name` (line 81) after it released the lock.  Another
goroutine can therefore run between these three pieces. -/

/-- The goroutine-local state of one dispatch of a `rename|` line: the receiver, the
local `newName`, the position in the branch and the local `exist`. -/
structure RenameCall where
  user : UserPtr
  newName : GoString
  pc : Nat
  exist : Bool
  deriving DecidableEq, Repr

/-- One atomic piece of the `rename|` branch: `pc = 0` is line 72, `pc = 1` is the
`if exist` with either the reply of line 74 or the locked block of lines 76 to 79,
`pc = 2` is lines 81 and 82. -/
def RenameCall.step (s : Server) (c : RenameCall) : Server × RenameCall :=
  match c.pc with
  | 0 => (s, { c with pc := 1, exist := renameExist s c.newName })
  | 1 =>
    if c.exist then (SendMsg s c.user (utf8 "当前用户名被使用\n"), { c with pc := 3 })
    else (renameLocked s c.user c.newName, { c with pc := 2 })
  | 2 => (renameFinish s c.user c.newName, { c with pc := 3 })
  | _ => (s, c)

/-- Runs two dispatches under a schedule: `true` lets the first one take its next
piece, `false` the second one. -/
def runRenames (s : Server) (a b : RenameCall) : List Bool → Server × RenameCall × RenameCall
  | [] => (s, a, b)
  | true :: sched => runRenames (RenameCall.step s a).1 (RenameCall.step s a).2 b sched
  | false :: sched => runRenames (RenameCall.step s b).1 a (RenameCall.step s b).2 sched

/-! ## The registry invariant -/

/-- Every registry entry is keyed by the current `Name` of an allocated user. -/
def RegistryInv (s : Server) : Prop :=
  ∀ e ∈ s.OnlineMap.entries, e.2 < s.next ∧ (s.heap e.2).Name = e.1

instance (s : Server) : Decidable (RegistryInv s) := by
  unfold RegistryInv; infer_instance

/-- The states the server reaches when the goroutines run one after the other: a
client joins, an allocated user sends a line, a reader sees the end of its stream, an
idle timer fires. -/
inductive Reachable : Server → Prop
  | init (ip : GoString) (port : Int) : Reachable (NewServer ip port)
  | join (s : Server) (userAddr : GoString) : Reachable s → Reachable (Handler_join s userAddr).2
  | handle (s s2 : Server) (user : UserPtr) (msg : GoString) :
      Reachable s → user < s.next → HandleMessage s user msg = .ok s2 → Reachable s2
  | offline (s : Server) (user : UserPtr) : Reachable s → Reachable (Offline s user)
  | timeout (s : Server) (user : UserPtr) : Reachable s → Reachable (Handler_timeout s user)

/-! ## Example states -/

/-- A server that one client, with remote address `1.2.3.4:5`, has joined. -/
def oneUser : Server :=
  (Handler_join (NewServer (utf8 "0.0.0.0") 8888) (utf8 "1.2.3.4:5")).2

/-- A server that two clients, `1.2.3.4:5` and then `1.2.3.4:6`, have joined. -/
def twoUsers : Server := (Handler_join oneUser (utf8 "1.2.3.4:6")).2

/-- A server joined by one client whose remote address has a `|` in its IPv6 zone. -/
def zoneUser : Server :=
  (Handler_join (NewServer (utf8 "::") 8888) (utf8 "[fe80::1%a|b]:5000")).2

/-! ## Byte strings and `strings.Split` -/

theorem utf8_who : utf8 "who" = [119, 104, 111] := rfl
theorem utf8_renameTag : utf8 "rename|" = [114, 101, 110, 97, 109, 101, 124] := rfl
theorem utf8_toTag : utf8 "to|" = [116, 111, 124] := rfl
theorem utf8_bar : utf8 "|" = [124] := rfl
theorem utf8_nil : utf8 "" = [] := rfl

theorem strings_Split_ne_nil (s : GoString) (sep : UInt8) : strings_Split s sep ≠ [] := by
  induction s with
  | nil => simp [strings_Split]
  | cons c cs ih =>
    unfold strings_Split
    split
    · simp
    · split <;> simp

/-- A string without the separator is the only element of its split. -/
theorem strings_Split_of_not_mem (s : GoString) (sep : UInt8) (h : sep ∉ s) :
    strings_Split s sep = [s] := by
  induction s with
  | nil => rfl
  | cons c cs ih =>
    have hc : ¬ c = sep := fun e => h (by simp [e])
    have hcs : sep ∉ cs := fun e => h (List.mem_cons_of_mem _ e)
    simp [strings_Split, hc, ih hcs]

/-- The split of `t ++ sep ++ r` starts with `t` when `t` has no separator. -/
theorem strings_Split_append (t r : GoString) (sep : UInt8) (h : sep ∉ t) :
    strings_Split (t ++ sep :: r) sep = t :: strings_Split r sep := by
  induction t with
  | nil => simp [strings_Split]
  | cons c cs ih =>
    have hc : ¬ c = sep := fun e => h (by simp [e])
    have hcs : sep ∉ cs := fun e => h (List.mem_cons_of_mem _ e)
    simp [strings_Split, hc, ih hcs]

theorem strings_Split_rename (n : GoString) :
    strings_Split (utf8 "rename|" ++ n) pipe = utf8 "rename" :: strings_Split n pipe :=
  strings_Split_append (utf8 "rename") n pipe (by decide)

theorem strings_Split_to (r : GoString) :
    strings_Split (utf8 "to|" ++ r) pipe = utf8 "to" :: strings_Split r pipe :=
  strings_Split_append (utf8 "to") r pipe (by decide)

theorem index_one (a b : GoString) (l : List GoString) : index (a :: b :: l) 1 = .ok b := by
  simp [index]

theorem index_two (a b c : GoString) (l : List GoString) :
    index (a :: b :: c :: l) 2 = .ok c := by
  simp [index]

/-! ## The guards of `HandleMessage` -/

theorem rename_ne_who (n : GoString) : utf8 "rename|" ++ n ≠ utf8 "who" := by
  simp [utf8_who, utf8_renameTag]

theorem rename_guard (n : GoString) (hn : n ≠ []) :
    (utf8 "rename|" ++ n).length > 7 ∧ (utf8 "rename|" ++ n).take 7 = utf8 "rename|" := by
  have : 0 < n.length := List.length_pos.mpr hn
  constructor
  · simp [utf8_renameTag]; omega
  · simp [utf8_renameTag]

theorem to_ne_who (r : GoString) : utf8 "to|" ++ r ≠ utf8 "who" := by
  simp [utf8_who, utf8_toTag]

theorem to_not_rename (r : GoString) :
    ¬ ((utf8 "to|" ++ r).length > 7 ∧ (utf8 "to|" ++ r).take 7 = utf8 "rename|") := by
  rintro ⟨-, h⟩
  have h0 := congrArg List.head? h
  simp [utf8_toTag, utf8_renameTag] at h0

theorem to_guard (r : GoString) (hr : 2 ≤ r.length) :
    (utf8 "to|" ++ r).length > 4 ∧ (utf8 "to|" ++ r).take 3 = utf8 "to|" := by
  constructor
  · simp [utf8_toTag]; omega
  · simp [utf8_toTag]

/-- The dispatch of a `to|` line of at least five bytes, after the guards. -/
theorem HandleMessage_to (s : Server) (user : UserPtr) (r : GoString) (hr : 2 ≤ r.length) :
    HandleMessage s user (utf8 "to|" ++ r) =
      (do
        let remoteName ← index (strings_Split (utf8 "to|" ++ r) pipe) 1
        if remoteName = utf8 "" then
          .ok (SendMsg s user (utf8 "消息格式不正确，请使用\" to|userName|message\"格式。\n"))
        else
          match s.OnlineMap.lookup remoteName with
          | none => .ok (SendMsg s user (utf8 "当前用户不存在\n"))
          | some remoteUser => do
            let content ← index (strings_Split (utf8 "to|" ++ r) pipe) 2
            if content = utf8 "" then
              .ok (SendMsg s user (utf8 "无效消息，请重发\n"))
            else
              let s1 := SendMsg s remoteUser ((s.heap user).Name ++ utf8 ": " ++ content ++ utf8 "\n")
              .ok (SendMsg s1 user (utf8 "发送成功\n"))) := by
  unfold HandleMessage
  rw [if_neg (to_ne_who r), if_neg (to_not_rename r), if_pos (to_guard r hr)]

/-- The dispatch of a `rename|` line with a non-empty rest, after the guards. -/
theorem HandleMessage_rename (s : Server) (user : UserPtr) (n : GoString) (hn : n ≠ []) :
    HandleMessage s user (utf8 "rename|" ++ n) =
      (do
        let newName ← index (strings_Split (utf8 "rename|" ++ n) pipe) 1
        if renameExist s newName then
          .ok (SendMsg s user (utf8 "当前用户名被使用\n"))
        else
          .ok (renameFinish (renameLocked s user newName) user newName)) := by
  unfold HandleMessage
  rw [if_neg (rename_ne_who n), if_pos (rename_guard n hn)]

/-! ## Direct messages -/

/-- Claim C7 (target not found).  For every caller `A`, every non-empty name `t`
without `|` that is not a key of the registry and every text `x`, the line
`to|t|x` sends `A` exactly the reply `当前用户不存在` and does nothing else: no other
write, nothing on the broadcast channel, registry and users unchanged. -/
theorem HandleMessage_to_unknown_target (s : Server) (A : UserPtr) (t x : GoString)
    (ht : t ≠ []) (hpipe : pipe ∉ t) (hfree : s.OnlineMap.lookup t = none) :
    ∃ s2, HandleMessage s A (utf8 "to|" ++ t ++ utf8 "|" ++ x) = .ok s2 ∧
      s2.trace = s.trace ++ [.connWrite A (utf8 "当前用户不存在\n")] ∧
      s2.OnlineMap = s.OnlineMap ∧ s2.heap = s.heap := by
  have hlen : 0 < t.length := List.length_pos.mpr ht
  have hmsg : utf8 "to|" ++ t ++ utf8 "|" ++ x = utf8 "to|" ++ (t ++ pipe :: x) := by
    simp [utf8_bar, pipe]
  rw [hmsg, HandleMessage_to s A _ (by simp; omega), strings_Split_to,
    strings_Split_append t x pipe hpipe, index_one]
  refine ⟨SendMsg s A (utf8 "当前用户不存在\n"), ?_, rfl, rfl, rfl⟩
  simp [utf8_nil, ht, hfree, bind, Except.bind]

/-- The scenario of claim C7: `to|bob|hi` while nobody is named `bob`. -/
theorem HandleMessage_to_unknown_target_witness :
    (utf8 "bob" ≠ [] ∧ pipe ∉ utf8 "bob" ∧ oneUser.OnlineMap.lookup (utf8 "bob") = none) ∧
    ∃ s2, HandleMessage oneUser 0 (utf8 "to|" ++ utf8 "bob" ++ utf8 "|" ++ utf8 "hi") = .ok s2 ∧
      s2.trace = oneUser.trace ++ [.connWrite 0 (utf8 "当前用户不存在\n")] ∧
      s2.OnlineMap = oneUser.OnlineMap ∧ s2.heap = oneUser.heap :=
  ⟨⟨by decide, by decide, by decide⟩,
    HandleMessage_to_unknown_target oneUser 0 (utf8 "bob") (utf8 "hi")
      (by decide) (by decide) (by decide)⟩

/-- Claim C4, as amended (direct message delivery).  For every caller `A`, every
non-empty name `t` without `|` registered to `B`, and every text `y ++ z` whose part `y`
before the first `|` is non-empty (`z` is empty, or starts with `|`), the line
`to|t|y ++ z` writes `A.Name + ": " + y + "\n"` to the connection of `B`, then the
acknowledgment `发送成功` to `A`, and does nothing else; registry and users are unchanged.
With `z` empty the text is delivered whole. -/
theorem HandleMessage_to_delivers (s : Server) (A B : UserPtr) (t y z : GoString)
    (ht : t ≠ []) (hpipe : pipe ∉ t) (hreg : s.OnlineMap.lookup t = some B)
    (hy : y ≠ []) (hypipe : pipe ∉ y) (hz : z = [] ∨ ∃ r, z = pipe :: r) :
    ∃ s2, HandleMessage s A (utf8 "to|" ++ t ++ utf8 "|" ++ (y ++ z)) = .ok s2 ∧
      s2.trace = s.trace ++
        [.connWrite B ((s.heap A).Name ++ utf8 ": " ++ y ++ utf8 "\n"),
         .connWrite A (utf8 "发送成功\n")] ∧
      s2.OnlineMap = s.OnlineMap ∧ s2.heap = s.heap := by
  have hlen : 0 < t.length := List.length_pos.mpr ht
  have hmsg : utf8 "to|" ++ t ++ utf8 "|" ++ (y ++ z) = utf8 "to|" ++ (t ++ pipe :: (y ++ z)) := by
    simp [utf8_bar, pipe]
  have hsplit : ∃ l, strings_Split (y ++ z) pipe = y :: l := by
    rcases hz with rfl | ⟨r, rfl⟩
    · exact ⟨[], by simpa using strings_Split_of_not_mem y pipe hypipe⟩
    · exact ⟨_, strings_Split_append y r pipe hypipe⟩
  obtain ⟨l, hl⟩ := hsplit
  rw [hmsg, HandleMessage_to s A _ (by simp; omega), strings_Split_to,
    strings_Split_append t (y ++ z) pipe hpipe, hl, index_one, index_two]
  refine ⟨SendMsg (SendMsg s B ((s.heap A).Name ++ utf8 ": " ++ y ++ utf8 "\n")) A
    (utf8 "发送成功\n"), ?_, ?_, rfl, rfl⟩
  · simp [utf8_nil, ht, hy, hreg, bind, Except.bind]
  · simp [SendMsg, emit]

/-- An instance of claim C4 as amended: `1.2.3.4:5` sends `to|1.2.3.4:6|hi`. -/
theorem HandleMessage_to_delivers_witness :
    (utf8 "1.2.3.4:6" ≠ [] ∧ pipe ∉ utf8 "1.2.3.4:6" ∧
      twoUsers.OnlineMap.lookup (utf8 "1.2.3.4:6") = some 1 ∧
      utf8 "hi" ≠ [] ∧ pipe ∉ utf8 "hi") ∧
    ∃ s2, HandleMessage twoUsers 0 (utf8 "to|" ++ utf8 "1.2.3.4:6" ++ utf8 "|" ++ (utf8 "hi" ++ []))
        = .ok s2 ∧
      s2.trace = twoUsers.trace ++
        [.connWrite 1 ((twoUsers.heap 0).Name ++ utf8 ": " ++ utf8 "hi" ++ utf8 "\n"),
         .connWrite 0 (utf8 "发送成功\n")] ∧
      s2.OnlineMap = twoUsers.OnlineMap ∧ s2.heap = twoUsers.heap :=
  ⟨⟨by decide, by decide, by decide, by decide, by decide⟩,
    HandleMessage_to_delivers twoUsers 0 1 (utf8 "1.2.3.4:6") (utf8 "hi") []
      (by decide) (by decide) (by decide) (by decide) (by decide) (Or.inl rfl)⟩

/-- Claim C4 fails as stated: `1.2.3.4:5` sends `to|1.2.3.4:6|a|b`; the text `a|b` is
non-empty, and `1.2.3.4:6` receives `1.2.3.4:5: a`, not the whole text. -/
theorem HandleMessage_to_truncates_text :
    twoUsers.OnlineMap.lookup (utf8 "1.2.3.4:6") = some 1 ∧ utf8 "a|b" ≠ [] ∧
    ∃ s2, HandleMessage twoUsers 0 (utf8 "to|" ++ utf8 "1.2.3.4:6" ++ utf8 "|" ++ utf8 "a|b")
        = .ok s2 ∧
      s2.trace = twoUsers.trace ++
        [.connWrite 1 (utf8 "1.2.3.4:5: a\n"), .connWrite 0 (utf8 "发送成功\n")] ∧
      Effect.connWrite 1 ((twoUsers.heap 0).Name ++ utf8 ": " ++ utf8 "a|b") ∉ s2.trace ∧
      Effect.connWrite 1 ((twoUsers.heap 0).Name ++ utf8 ": " ++ utf8 "a|b" ++ utf8 "\n")
        ∉ s2.trace :=
  ⟨by decide, by decide,
    SendMsg (SendMsg twoUsers 1 (utf8 "1.2.3.4:5: a\n")) 0 (utf8 "发送成功\n"),
    rfl, by decide, by decide, by decide⟩

/-! ## Public chat -/

/-- Claim C5, as amended (public chat).  For every session `A` and every line that is
not `who` and starts neither with `rename|` nor with `to|` (the empty line included),
the dispatch sends exactly one message on the broadcast channel,
`"[" + A.Addr + "]" + A.Name + ":" + line` with no space after the colon, writes to no
connection, and leaves registry and users unchanged. -/
theorem HandleMessage_public_chat (s : Server) (A : UserPtr) (line : GoString)
    (hwho : line ≠ utf8 "who") (hrename : line.take 7 ≠ utf8 "rename|")
    (hto : line.take 3 ≠ utf8 "to|") :
    ∃ s2, HandleMessage s A line = .ok s2 ∧
      s2.trace = s.trace ++
        [.messageSend (utf8 "[" ++ (s.heap A).Addr ++ utf8 "]" ++ (s.heap A).Name ++ utf8 ":"
          ++ line)] ∧
      s2.OnlineMap = s.OnlineMap ∧ s2.heap = s.heap := by
  refine ⟨BroadCast s A line, ?_, rfl, rfl, rfl⟩
  unfold HandleMessage
  rw [if_neg hwho, if_neg (fun h => hrename h.2), if_neg (fun h => hto h.2)]

/-- An instance of claim C5 as amended: the empty line is published. -/
theorem HandleMessage_public_chat_witness :
    ((utf8 "" ≠ utf8 "who") ∧ (utf8 "").take 7 ≠ utf8 "rename|" ∧ (utf8 "").take 3 ≠ utf8 "to|") ∧
    ∃ s2, HandleMessage oneUser 0 (utf8 "") = .ok s2 ∧
      s2.trace = oneUser.trace ++
        [.messageSend (utf8 "[" ++ (oneUser.heap 0).Addr ++ utf8 "]" ++ (oneUser.heap 0).Name
          ++ utf8 ":" ++ utf8 "")] ∧
      s2.OnlineMap = oneUser.OnlineMap ∧ s2.heap = oneUser.heap :=
  ⟨⟨by decide, by decide, by decide⟩,
    HandleMessage_public_chat oneUser 0 (utf8 "") (by decide) (by decide) (by decide)⟩

/-- Claim C5 fails as stated: for the line `hi` of `1.2.3.4:5` the published message is
`[1.2.3.4:5]1.2.3.4:5:hi`, which is not `"[" + Addr + "]" + Name + ": " + line`. -/
theorem HandleMessage_public_chat_no_space :
    ∃ s2, HandleMessage oneUser 0 (utf8 "hi") = .ok s2 ∧
      s2.trace = oneUser.trace ++ [.messageSend (utf8 "[1.2.3.4:5]1.2.3.4:5:hi")] ∧
      Effect.messageSend (utf8 "[" ++ (oneUser.heap 0).Addr ++ utf8 "]" ++ (oneUser.heap 0).Name
        ++ utf8 ": " ++ utf8 "hi") ∉ s2.trace :=
  ⟨BroadCast oneUser 0 (utf8 "hi"), rfl, by decide, by decide⟩

/-! ## Rename: name in use, empty segments -/

/-- Claim C6, as amended (name conflict).  For every session `A` and every non-empty
name `n` without `|` that is a key of the registry (the current name of `A` included),
the line `rename|n` sends `A` the reply `当前用户名被使用` and nothing else, and leaves
registry and users, so also `A.Name`, unchanged. -/
theorem HandleMessage_rename_in_use (s : Server) (A U : UserPtr) (n : GoString)
    (hn : n ≠ []) (hpipe : pipe ∉ n) (hkey : s.OnlineMap.lookup n = some U) :
    ∃ s2, HandleMessage s A (utf8 "rename|" ++ n) = .ok s2 ∧
      s2.trace = s.trace ++ [.connWrite A (utf8 "当前用户名被使用\n")] ∧
      s2.OnlineMap = s.OnlineMap ∧ s2.heap = s.heap := by
  rw [HandleMessage_rename s A n hn, strings_Split_rename,
    strings_Split_of_not_mem n pipe hpipe, index_one]
  refine ⟨SendMsg s A (utf8 "当前用户名被使用\n"), ?_, rfl, rfl, rfl⟩
  simp [renameExist, hkey, bind, Except.bind]

/-- An instance of claim C6 as amended: `1.2.3.4:5` renames to its own name. -/
theorem HandleMessage_rename_in_use_witness :
    (utf8 "1.2.3.4:5" ≠ [] ∧ pipe ∉ utf8 "1.2.3.4:5" ∧
      twoUsers.OnlineMap.lookup (utf8 "1.2.3.4:5") = some 0) ∧
    ∃ s2, HandleMessage twoUsers 0 (utf8 "rename|" ++ utf8 "1.2.3.4:5") = .ok s2 ∧
      s2.trace = twoUsers.trace ++ [.connWrite 0 (utf8 "当前用户名被使用\n")] ∧
      s2.OnlineMap = twoUsers.OnlineMap ∧ s2.heap = twoUsers.heap :=
  ⟨⟨by decide, by decide, by decide⟩,
    HandleMessage_rename_in_use twoUsers 0 0 (utf8 "1.2.3.4:5") (by decide) (by decide)
      (by decide)⟩

/-- Claim C6 fails as stated: the name `[fe80::1%a|b]:5000` is a key of the registry (it
is the address under which the client joined), and `rename|[fe80::1%a|b]:5000` renames
the client to `[fe80::1%a`, the part before the first `|`, instead of replying that the
name is in use. -/
theorem HandleMessage_rename_key_with_bar :
    zoneUser.OnlineMap.lookup (utf8 "[fe80::1%a|b]:5000") = some 0 ∧
    utf8 "[fe80::1%a|b]:5000" ≠ [] ∧
    ∃ s2, HandleMessage zoneUser 0 (utf8 "rename|" ++ utf8 "[fe80::1%a|b]:5000") = .ok s2 ∧
      s2.trace = zoneUser.trace ++ [.connWrite 0 (utf8 "您已经更新用户名:[fe80::1%a\n")] ∧
      (s2.heap 0).Name = utf8 "[fe80::1%a" ∧
      s2.OnlineMap.lookup (utf8 "[fe80::1%a|b]:5000") = none ∧
      s2.OnlineMap.lookup (utf8 "[fe80::1%a") = some 0 :=
  ⟨by decide, by decide,
    renameFinish (renameLocked zoneUser 0 (utf8 "[fe80::1%a")) 0 (utf8 "[fe80::1%a"),
    rfl, by decide, by decide, by decide, by decide⟩

/-- Claim C8, as amended (empty segments).  For every session `A` and every non-empty
text `x`, the line `to||x` sends `A` the format-error reply and nothing else, with
registry and users unchanged.  The line `rename|` gets no reply: it fails the test
`len(msg) > 7` and is published as public chat. -/
theorem HandleMessage_empty_segment (s : Server) (A : UserPtr) :
    (∀ x : GoString, x ≠ [] →
      ∃ s2, HandleMessage s A (utf8 "to||" ++ x) = .ok s2 ∧
        s2.trace = s.trace ++
          [.connWrite A (utf8 "消息格式不正确，请使用\" to|userName|message\"格式。\n")] ∧
        s2.OnlineMap = s.OnlineMap ∧ s2.heap = s.heap) ∧
    ∃ s2, HandleMessage s A (utf8 "rename|") = .ok s2 ∧
      s2.trace = s.trace ++
        [.messageSend (utf8 "[" ++ (s.heap A).Addr ++ utf8 "]" ++ (s.heap A).Name ++
          utf8 ":" ++ utf8 "rename|")] ∧
      s2.OnlineMap = s.OnlineMap ∧ s2.heap = s.heap := by
  constructor
  · intro x hx
    have hlen : 0 < x.length := List.length_pos.mpr hx
    have hmsg : utf8 "to||" ++ x = utf8 "to|" ++ ([] ++ pipe :: x) := rfl
    rw [hmsg, HandleMessage_to s A _ (by simp; omega), strings_Split_to,
      strings_Split_append [] x pipe (by simp), index_one]
    exact ⟨SendMsg s A _, rfl, rfl, rfl, rfl⟩
  · exact ⟨BroadCast s A (utf8 "rename|"), rfl, rfl, rfl, rfl⟩

/-- An instance of claim C8 as amended: the scenario `to||hi`. -/
theorem HandleMessage_empty_segment_witness :
    utf8 "hi" ≠ [] ∧
    ∃ s2, HandleMessage oneUser 0 (utf8 "to||" ++ utf8 "hi") = .ok s2 ∧
      s2.trace = oneUser.trace ++
        [.connWrite 0 (utf8 "消息格式不正确，请使用\" to|userName|message\"格式。\n")] ∧
      s2.OnlineMap = oneUser.OnlineMap ∧ s2.heap = oneUser.heap :=
  ⟨by decide, (HandleMessage_empty_segment oneUser 0).1 (utf8 "hi") (by decide)⟩

/-- Claim C8 fails as stated: the line `rename|` of `1.2.3.4:5` is sent on the broadcast
channel and nothing is written to the connection of `1.2.3.4:5`. -/
theorem HandleMessage_rename_bar_published :
    ∃ s2, HandleMessage oneUser 0 (utf8 "rename|") = .ok s2 ∧
      s2.trace = oneUser.trace ++ [.messageSend (utf8 "[1.2.3.4:5]1.2.3.4:5:rename|")] ∧
      ∀ e ∈ s2.trace, ∀ reply, e ≠ Effect.connWrite 0 reply :=
  ⟨BroadCast oneUser 0 (utf8 "rename|"), rfl, by decide, by
    intro e he reply
    have h : e = Effect.messageSend (utf8 "[1.2.3.4:5]1.2.3.4:5:已上线") ∨
        e = Effect.messageSend (utf8 "[1.2.3.4:5]1.2.3.4:5:rename|") := by
      have ht : (BroadCast oneUser 0 (utf8 "rename|")).trace =
          [Effect.messageSend (utf8 "[1.2.3.4:5]1.2.3.4:5:已上线"),
           Effect.messageSend (utf8 "[1.2.3.4:5]1.2.3.4:5:rename|")] := by decide
      rw [ht] at he
      simpa using he
    rcases h with rfl | rfl <;> simp⟩


/-! ## The `who` listing and the registry invariant -/

theorem foldl_SendMsg (c : UserPtr) (l : List (Σ _ : GoString, UserPtr)) (s : Server) :
    l.foldl (fun st u => SendMsg st c (onlineMsg (st.heap u.2))) s =
      { s with
        trace := s.trace ++ l.map (fun u => Effect.connWrite c (onlineMsg (s.heap u.2))) } := by
  induction l generalizing s with
  | nil => simp
  | cons e l ih =>
    rw [List.foldl_cons, ih]
    simp [SendMsg, emit]

/-- The `who` branch writes one `onlineMsg` per registry entry to the caller. -/
theorem HandleMessage_who (s : Server) (c : UserPtr) :
    HandleMessage s c (utf8 "who") = .ok
      { s with
        trace := s.trace ++
          s.OnlineMap.entries.map (fun u => Effect.connWrite c (onlineMsg (s.heap u.2))) } := by
  unfold HandleMessage
  rw [if_pos rfl, foldl_SendMsg]

theorem RegistryInv_iff (s : Server) :
    RegistryInv s ↔
      ∀ k u, s.OnlineMap.lookup k = some u → u < s.next ∧ (s.heap u).Name = k := by
  constructor
  · intro h k u hk
    exact h ⟨k, u⟩ (AList.mem_lookup_iff.mp hk)
  · rintro h ⟨k, u⟩ he
    exact h k u (AList.mem_lookup_iff.mpr he)

theorem lookup_renameLocked (s : Server) (user : UserPtr) (newName k : GoString) :
    (renameLocked s user newName).OnlineMap.lookup k =
      if k = newName then some user
      else if k = (s.heap user).Name then none else s.OnlineMap.lookup k := by
  unfold renameLocked
  by_cases h1 : k = newName
  · subst h1; simp
  · by_cases h2 : k = (s.heap user).Name
    · subst h2; simp [h1]
    · simp [h1, h2]


theorem RegistryInv_congr (s s2 : Server) (h : RegistryInv s)
    (hm : s2.OnlineMap = s.OnlineMap) (hh : s2.heap = s.heap) (hx : s2.next = s.next) :
    RegistryInv s2 := by
  unfold RegistryInv at *
  rw [hm, hh, hx]
  exact h

/-- Every result of `HandleMessage` either has the registry and the users of the state
before, or is the state after the three pieces of a rename. -/
theorem HandleMessage_cases (s s2 : Server) (user : UserPtr) (msg : GoString)
    (h : HandleMessage s user msg = .ok s2) :
    (s2.OnlineMap = s.OnlineMap ∧ s2.heap = s.heap ∧ s2.next = s.next) ∨
      ∃ newName, s2 = renameFinish (renameLocked s user newName) user newName := by
  by_cases hw : msg = utf8 "who"
  · subst hw
    rw [HandleMessage_who] at h
    cases h
    exact Or.inl ⟨rfl, rfl, rfl⟩
  by_cases hr : msg.length > 7 ∧ msg.take 7 = utf8 "rename|"
  · unfold HandleMessage at h
    rw [if_neg hw, if_pos hr] at h
    cases hi : index (strings_Split msg pipe) 1 with
    | error e => simp [hi, bind, Except.bind] at h
    | ok newName =>
      simp only [hi, bind, Except.bind] at h
      split at h
      · cases h
        exact Or.inl ⟨rfl, rfl, rfl⟩
      · cases h
        exact Or.inr ⟨newName, rfl⟩
  by_cases ht : msg.length > 4 ∧ msg.take 3 = utf8 "to|"
  · unfold HandleMessage at h
    rw [if_neg hw, if_neg hr, if_pos ht] at h
    cases hi : index (strings_Split msg pipe) 1 with
    | error e => simp [hi, bind, Except.bind] at h
    | ok remoteName =>
      simp only [hi, bind, Except.bind] at h
      split at h
      · cases h
        exact Or.inl ⟨rfl, rfl, rfl⟩
      · split at h
        · cases h
          exact Or.inl ⟨rfl, rfl, rfl⟩
        · cases hc : index (strings_Split msg pipe) 2 with
          | error e => simp [hc] at h
          | ok content =>
            simp only [hc] at h
            split at h
            · cases h
              exact Or.inl ⟨rfl, rfl, rfl⟩
            · cases h
              exact Or.inl ⟨rfl, rfl, rfl⟩
  · unfold HandleMessage at h
    rw [if_neg hw, if_neg hr, if_neg ht] at h
    cases h
    exact Or.inl ⟨rfl, rfl, rfl⟩

theorem RegistryInv_NewServer (ip : GoString) (port : Int) : RegistryInv (NewServer ip port) := by
  intro e he
  simp [NewServer] at he

theorem RegistryInv_rename (s : Server) (user : UserPtr) (newName : GoString)
    (h : RegistryInv s) (hu : user < s.next) :
    RegistryInv (renameFinish (renameLocked s user newName) user newName) := by
  rw [RegistryInv_iff] at h ⊢
  intro k u hk
  have hk2 : (renameLocked s user newName).OnlineMap.lookup k = some u := hk
  rw [lookup_renameLocked] at hk2
  by_cases h1 : k = newName
  · rw [if_pos h1] at hk2
    cases hk2
    exact ⟨hu, by simp [renameFinish, renameLocked, SendMsg, emit, h1]⟩
  · rw [if_neg h1] at hk2
    by_cases h2 : k = (s.heap user).Name
    · rw [if_pos h2] at hk2
      cases hk2
    · rw [if_neg h2] at hk2
      obtain ⟨hlt, hname⟩ := h k u hk2
      have hne : u ≠ user := by
        rintro rfl
        exact h2 hname.symm
      exact ⟨hlt, by simpa [renameFinish, renameLocked, SendMsg, emit, hne] using hname⟩

/-- A dispatch by `HandleMessage` for an allocated user keeps the registry invariant. -/
theorem RegistryInv_HandleMessage (s s2 : Server) (user : UserPtr) (msg : GoString)
    (h : RegistryInv s) (hu : user < s.next) (hr : HandleMessage s user msg = .ok s2) :
    RegistryInv s2 := by
  rcases HandleMessage_cases s s2 user msg hr with ⟨hm, hh, hx⟩ | ⟨newName, rfl⟩
  · exact RegistryInv_congr s s2 h hm hh hx
  · exact RegistryInv_rename s user newName h hu

/-- Joining keeps the registry invariant. -/
theorem RegistryInv_Handler_join (s : Server) (userAddr : GoString) (h : RegistryInv s) :
    RegistryInv (Handler_join s userAddr).2 := by
  rw [RegistryInv_iff] at h ⊢
  intro k u hk
  have hk2 : (s.OnlineMap.insert userAddr s.next).lookup k = some u := by
    simpa [Handler_join, NewUser, Online, BroadCast, emit] using hk
  by_cases h1 : k = userAddr
  · subst h1
    rw [AList.lookup_insert] at hk2
    cases hk2
    simp [Handler_join, NewUser, Online, BroadCast, emit]
  · rw [AList.lookup_insert_ne h1] at hk2
    obtain ⟨hlt, hname⟩ := h k u hk2
    have hne : u ≠ s.next := Nat.ne_of_lt hlt
    exact ⟨Nat.lt_succ_of_lt hlt,
      by simpa [Handler_join, NewUser, Online, BroadCast, emit, hne] using hname⟩

theorem RegistryInv_erase (s s2 : Server) (k : GoString) (h : RegistryInv s)
    (hm : s2.OnlineMap = s.OnlineMap.erase k) (hh : s2.heap = s.heap) (hx : s2.next = s.next) :
    RegistryInv s2 := by
  rw [RegistryInv_iff] at h ⊢
  intro k2 u hk
  rw [hm] at hk
  by_cases h1 : k2 = k
  · subst h1
    simp at hk
  · rw [AList.lookup_erase_ne h1] at hk
    rw [hh, hx]
    exact h k2 u hk

/-- Leaving through `Offline` keeps the registry invariant. -/
theorem RegistryInv_Offline (s : Server) (user : UserPtr) (h : RegistryInv s) :
    RegistryInv (Offline s user) :=
  RegistryInv_erase s _ (s.heap user).Name h rfl rfl rfl

/-- The timeout branch keeps the registry invariant. -/
theorem RegistryInv_Handler_timeout (s : Server) (user : UserPtr) (h : RegistryInv s) :
    RegistryInv (Handler_timeout s user) :=
  RegistryInv_erase s _ (s.heap user).Name h rfl rfl rfl

/-- The registry invariant holds in every reachable state. -/
theorem RegistryInv_of_Reachable (s : Server) (h : Reachable s) : RegistryInv s := by
  induction h with
  | init ip port => exact RegistryInv_NewServer ip port
  | join s userAddr _ ih => exact RegistryInv_Handler_join s userAddr ih
  | handle s s2 user msg _ hu hr ih => exact RegistryInv_HandleMessage s s2 user msg ih hu hr
  | offline s user _ ih => exact RegistryInv_Offline s user ih
  | timeout s user _ ih => exact RegistryInv_Handler_timeout s user ih

/-! ## Successful rename -/

/-- Claim C3 (successful rename).  In a state with the registry invariant, for every
session `A` registered under its current name and every non-empty name `n` without `|`
that is not a key of the registry, the line `rename|n` sets `A.Name` to `n`, removes the
old key of `A`, maps `n` to `A`, leaves every other entry and every other user
unchanged, and writes to `A` exactly one acknowledgment.  A `who` dispatched afterwards
by any session `c` writes one `onlineMsg` per registry entry; the one of `A` shows `n`,
and no entry shows the old name of `A`. -/
theorem HandleMessage_rename_success (s : Server) (A : UserPtr) (n : GoString)
    (hinv : RegistryInv s) (hreg : s.OnlineMap.lookup (s.heap A).Name = some A)
    (hn : n ≠ []) (hpipe : pipe ∉ n) (hfree : s.OnlineMap.lookup n = none) :
    ∃ s2, HandleMessage s A (utf8 "rename|" ++ n) = .ok s2 ∧
      (s2.heap A).Name = n ∧ (s2.heap A).Addr = (s.heap A).Addr ∧
      (∀ u, u ≠ A → s2.heap u = s.heap u) ∧
      s2.OnlineMap.lookup (s.heap A).Name = none ∧
      s2.OnlineMap.lookup n = some A ∧
      (∀ k, k ≠ (s.heap A).Name → k ≠ n → s2.OnlineMap.lookup k = s.OnlineMap.lookup k) ∧
      s2.trace = s.trace ++ [.connWrite A (utf8 "您已经更新用户名:" ++ n ++ utf8 "\n")] ∧
      ∀ c, ∃ s3, HandleMessage s2 c (utf8 "who") = .ok s3 ∧
        s3.trace = s2.trace ++
          s2.OnlineMap.entries.map (fun u => Effect.connWrite c (onlineMsg (s2.heap u.2))) ∧
        (⟨n, A⟩ ∈ s2.OnlineMap.entries ∧
          onlineMsg (s2.heap A) =
            utf8 "[" ++ (s.heap A).Addr ++ utf8 "]" ++ n ++ utf8 ":在线...\n") ∧
        ∀ u ∈ s2.OnlineMap.entries, (s2.heap u.2).Name ≠ (s.heap A).Name := by
  have hold : (s.heap A).Name ≠ n := by
    intro e
    rw [e, hfree] at hreg
    cases hreg
  have hrun : HandleMessage s A (utf8 "rename|" ++ n) =
      .ok (renameFinish (renameLocked s A n) A n) := by
    rw [HandleMessage_rename s A n hn, strings_Split_rename,
      strings_Split_of_not_mem n pipe hpipe, index_one]
    simp [renameExist, hfree, bind, Except.bind]
  have hlook : ∀ k, (renameFinish (renameLocked s A n) A n).OnlineMap.lookup k =
      if k = n then some A else if k = (s.heap A).Name then none else s.OnlineMap.lookup k :=
    fun k => lookup_renameLocked s A n k
  have hheap : ∀ u, (renameFinish (renameLocked s A n) A n).heap u =
      if u = A then ⟨n, (s.heap A).Addr⟩ else s.heap u := by
    intro u
    by_cases hu : u = A
    · subst hu
      simp [renameFinish, renameLocked, SendMsg, emit]
    · simp [renameFinish, renameLocked, SendMsg, emit, hu]
  refine ⟨_, hrun, ?_, ?_, ?_, ?_, ?_, ?_, ?_, ?_⟩
  · rw [hheap]; simp
  · rw [hheap]; simp
  · intro u hu
    rw [hheap, if_neg hu]
  · rw [hlook, if_neg hold, if_pos rfl]
  · rw [hlook, if_pos rfl]
  · intro k h1 h2
    rw [hlook, if_neg h2, if_neg h1]
  · simp [renameFinish, renameLocked, SendMsg, emit]
  · intro c
    refine ⟨_, HandleMessage_who _ c, rfl, ⟨?_, ?_⟩, ?_⟩
    · apply AList.mem_lookup_iff.mp
      rw [hlook, if_pos rfl]
      rfl
    · rw [hheap]
      simp [onlineMsg]
    · rintro ⟨k, u⟩ hmem
      have hk := AList.mem_lookup_iff.mpr hmem
      have hk2 : (renameFinish (renameLocked s A n) A n).OnlineMap.lookup k = some u := hk
      rw [hlook] at hk2
      show ((renameFinish (renameLocked s A n) A n).heap u).Name ≠ (s.heap A).Name
      rw [hheap]
      by_cases h1 : k = n
      · rw [if_pos h1] at hk2
        cases hk2
        simpa using fun e => hold e.symm
      · rw [if_neg h1] at hk2
        by_cases h2 : k = (s.heap A).Name
        · rw [if_pos h2] at hk2
          cases hk2
        · rw [if_neg h2] at hk2
          have hname := ((RegistryInv_iff s).mp hinv k u hk2).2
          have hne : u ≠ A := by
            rintro rfl
            exact h2 hname.symm
          rw [if_neg hne, hname]
          exact h2

/-- The scenario of claim C3: `1.2.3.4:5` sends `rename|alice` while nobody is named
`alice`. -/
theorem HandleMessage_rename_success_witness :
    (RegistryInv twoUsers ∧ twoUsers.OnlineMap.lookup (twoUsers.heap 0).Name = some 0 ∧
      utf8 "alice" ≠ [] ∧ pipe ∉ utf8 "alice" ∧
      twoUsers.OnlineMap.lookup (utf8 "alice") = none) ∧
    ∃ s2, HandleMessage twoUsers 0 (utf8 "rename|" ++ utf8 "alice") = .ok s2 ∧
      (s2.heap 0).Name = utf8 "alice" ∧ (s2.heap 0).Addr = (twoUsers.heap 0).Addr ∧
      (∀ u, u ≠ 0 → s2.heap u = twoUsers.heap u) ∧
      s2.OnlineMap.lookup (twoUsers.heap 0).Name = none ∧
      s2.OnlineMap.lookup (utf8 "alice") = some 0 ∧
      (∀ k, k ≠ (twoUsers.heap 0).Name → k ≠ utf8 "alice" →
        s2.OnlineMap.lookup k = twoUsers.OnlineMap.lookup k) ∧
      s2.trace = twoUsers.trace ++
        [.connWrite 0 (utf8 "您已经更新用户名:" ++ utf8 "alice" ++ utf8 "\n")] ∧
      ∀ c, ∃ s3, HandleMessage s2 c (utf8 "who") = .ok s3 ∧
        s3.trace = s2.trace ++
          s2.OnlineMap.entries.map (fun u => Effect.connWrite c (onlineMsg (s2.heap u.2))) ∧
        (⟨utf8 "alice", 0⟩ ∈ s2.OnlineMap.entries ∧
          onlineMsg (s2.heap 0) =
            utf8 "[" ++ (twoUsers.heap 0).Addr ++ utf8 "]" ++ utf8 "alice" ++ utf8 ":在线...\n") ∧
        ∀ u ∈ s2.OnlineMap.entries, (s2.heap u.2).Name ≠ (twoUsers.heap 0).Name :=
  ⟨⟨by decide, by decide, by decide, by decide, by decide⟩,
    HandleMessage_rename_success twoUsers 0 (utf8 "alice") (by decide) (by decide) (by decide)
      (by decide) (by decide)⟩


/-! ## Idle timeout -/

theorem erase_erase_self (m : AList (fun _ : GoString => UserPtr)) (k : GoString) :
    (m.erase k).erase k = m.erase k := by
  apply AList.ext
  exact List.kerase_of_not_mem_keys (List.not_mem_keys_kerase k m.nodupKeys)

theorem foldl_chSend (msg : GoString) (l : List (Σ _ : GoString, UserPtr)) (s : Server) :
    l.foldl (fun st cli => emit st (.chSend cli.2 msg)) s =
      { s with trace := s.trace ++ l.map (fun cli => Effect.chSend cli.2 msg) } := by
  induction l generalizing s with
  | nil => simp
  | cons e l ih =>
    rw [List.foldl_cons, ih]
    simp [emit]

/-- Claim C9, as amended (idle timeout).  When the idle timer of `A` fires, the timeout
branch writes the kick notice to `A`, closes the mailbox of `A`, closes `isLive`, deletes
the name of `A` from the registry and closes the connection, each once, and sends
nothing on the broadcast channel.  The announcement `已下线` is sent by `user.Offline()`,
which the reader goroutine of `A` runs when its `conn.Read` on the closed connection
returns 0 bytes: it is sent once, the registry stays as the timeout branch left it, and
`ListenMessager` hands the announcement to the mailbox of every session registered then,
that is, of every session registered before under another name than `A.Name`. -/
theorem Handler_timeout_teardown (s : Server) (A : UserPtr) :
    (Handler_timeout s A).trace = s.trace ++
      [.connWrite A (utf8 "你已超时，已被踢出服务器"), .closeCh A, .closeIsLive A,
       .connClose A] ∧
    (Handler_timeout s A).OnlineMap.lookup (s.heap A).Name = none ∧
    (∀ k, k ≠ (s.heap A).Name →
      (Handler_timeout s A).OnlineMap.lookup k = s.OnlineMap.lookup k) ∧
    (Handler_timeout s A).heap = s.heap ∧
    ∃ s2, Handler_read (Handler_timeout s A) A [] = .ok s2 ∧
      s2.trace = (Handler_timeout s A).trace ++
        [.messageSend (utf8 "[" ++ (s.heap A).Addr ++ utf8 "]" ++ (s.heap A).Name ++ utf8 ":"
          ++ utf8 "已下线")] ∧
      s2.OnlineMap = (Handler_timeout s A).OnlineMap ∧ s2.heap = s.heap ∧
      ∀ msg, (ListenMessager s2 msg).trace =
          s2.trace ++ s2.OnlineMap.entries.map (fun cli => Effect.chSend cli.2 msg) ∧
        ∀ k u, k ≠ (s.heap A).Name → s.OnlineMap.lookup k = some u →
          Effect.chSend u msg ∈
            s2.OnlineMap.entries.map (fun cli => Effect.chSend cli.2 msg) := by
  have hmap : (Handler_timeout s A).OnlineMap = s.OnlineMap.erase (s.heap A).Name := rfl
  refine ⟨by simp [Handler_timeout, SendMsg, emit], ?_, ?_, rfl, Offline (Handler_timeout s A) A,
    rfl, ?_, ?_, rfl, ?_⟩
  · rw [hmap]; simp
  · intro k hk
    rw [hmap, AList.lookup_erase_ne hk]
  · simp [Offline, BroadCast, Handler_timeout, SendMsg, emit]
  · show ((Handler_timeout s A).OnlineMap.erase (s.heap A).Name) = _
    rw [hmap, erase_erase_self]
  · intro msg
    constructor
    · unfold ListenMessager
      rw [foldl_chSend]
    · intro k u hk hlook
      have hmap2 : (Offline (Handler_timeout s A) A).OnlineMap =
          s.OnlineMap.erase (s.heap A).Name := by
        show ((Handler_timeout s A).OnlineMap.erase (s.heap A).Name) = _
        rw [hmap, erase_erase_self]
      rw [hmap2]
      refine List.mem_map.mpr ⟨⟨k, u⟩, ?_, rfl⟩
      apply AList.mem_lookup_iff.mp
      rw [AList.lookup_erase_ne hk, hlook]
      rfl

/-- An instance of claim C9 as amended: when `1.2.3.4:5` times out, the announcement is
handed to the mailbox of `1.2.3.4:6`. -/
theorem Handler_timeout_teardown_witness :
    (utf8 "1.2.3.4:6" ≠ (twoUsers.heap 0).Name ∧
      twoUsers.OnlineMap.lookup (utf8 "1.2.3.4:6") = some 1) ∧
    ∃ s2, Handler_read (Handler_timeout twoUsers 0) 0 [] = .ok s2 ∧
      Effect.chSend 1 (utf8 "[1.2.3.4:5]1.2.3.4:5:已下线") ∈
        s2.OnlineMap.entries.map
          (fun cli => Effect.chSend cli.2 (utf8 "[1.2.3.4:5]1.2.3.4:5:已下线")) :=
  ⟨⟨by decide, by decide⟩,
    match (Handler_timeout_teardown twoUsers 0).2.2.2.2 with
    | ⟨s2, h1, _, _, _, h5⟩ =>
      ⟨s2, h1, (h5 (utf8 "[1.2.3.4:5]1.2.3.4:5:已下线")).2 (utf8 "1.2.3.4:6") 1 (by decide)
        (by decide)⟩⟩

/-- Claim C9 fails as stated: the timeout branch for `1.2.3.4:5` performs the write and
the three closes and sends no `已下线` announcement, nor anything else, on the broadcast
channel. -/
theorem Handler_timeout_publishes_nothing :
    (Handler_timeout twoUsers 0).trace = twoUsers.trace ++
      [.connWrite 0 (utf8 "你已超时，已被踢出服务器"), .closeCh 0, .closeIsLive 0, .connClose 0] ∧
    twoUsers.trace =
      [.messageSend (utf8 "[1.2.3.4:5]1.2.3.4:5:已上线"),
       .messageSend (utf8 "[1.2.3.4:6]1.2.3.4:6:已上线")] ∧
    Effect.messageSend (utf8 "[1.2.3.4:5]1.2.3.4:5:已下线") ∉ (Handler_timeout twoUsers 0).trace :=
  ⟨by decide, by decide, by decide⟩

/-- The second `delete` of a timed-out session, the one in `user.Offline()`, is not
always void: if `1.2.3.4:6` renames itself to the freed name `1.2.3.4:5` before the reader
goroutine of the timed-out session runs `Offline`, that `delete` unregisters `1.2.3.4:6`,
which is still connected. -/
theorem Offline_after_timeout_unregisters_other :
    ∃ s2 s3, HandleMessage (Handler_timeout twoUsers 0) 1 (utf8 "rename|1.2.3.4:5") = .ok s2 ∧
      s2.OnlineMap.lookup (utf8 "1.2.3.4:5") = some 1 ∧
      Handler_read s2 0 [] = .ok s3 ∧
      (s3.heap 1).Name = utf8 "1.2.3.4:5" ∧ s3.OnlineMap.entries = [] :=
  ⟨renameFinish (renameLocked (Handler_timeout twoUsers 0) 1 (utf8 "1.2.3.4:5")) 1
      (utf8 "1.2.3.4:5"), _, rfl, by decide, rfl, by decide, by decide⟩

/-! ## Where `HandleMessage` can panic -/

/-- A `to|` line whose only other segment is a registered name panics, whatever the
state and the caller. -/
theorem HandleMessage_to_registered_without_text (s : Server) (A B : UserPtr) (t : GoString)
    (hlen : 2 ≤ t.length) (hpipe : pipe ∉ t) (hreg : s.OnlineMap.lookup t = some B) :
    HandleMessage s A (utf8 "to|" ++ t) = .error (.indexOutOfRange 2 2) := by
  have ht : t ≠ [] := by
    intro e
    rw [e] at hlen
    exact absurd hlen (by decide)
  rw [HandleMessage_to s A t hlen, strings_Split_to, strings_Split_of_not_mem t pipe hpipe,
    index_one]
  simp [utf8_nil, ht, hreg, bind, Except.bind, index]

/-- The only panic of `HandleMessage` is the index `[2]` of the `to|` branch, on a line
with exactly two segments whose second one is registered. -/
theorem HandleMessage_error_cases (s : Server) (user : UserPtr) (msg : GoString) (e : Panic)
    (h : HandleMessage s user msg = .error e) :
    e = .indexOutOfRange 2 2 ∧ msg.take 3 = utf8 "to|" ∧
      ∃ name B, strings_Split msg pipe = [utf8 "to", name] ∧
        s.OnlineMap.lookup name = some B := by
  by_cases hw : msg = utf8 "who"
  · subst hw
    rw [HandleMessage_who] at h
    cases h
  by_cases hr : msg.length > 7 ∧ msg.take 7 = utf8 "rename|"
  · have hmsg : msg = utf8 "rename|" ++ msg.drop 7 := by
      rw [← hr.2, List.take_append_drop]
    obtain ⟨w, ws, hws⟩ := List.exists_cons_of_ne_nil (strings_Split_ne_nil (msg.drop 7) pipe)
    unfold HandleMessage at h
    rw [if_neg hw, if_pos hr] at h
    rw [hmsg, strings_Split_rename, hws, index_one] at h
    simp only [bind, Except.bind] at h
    split at h <;> cases h
  by_cases ht : msg.length > 4 ∧ msg.take 3 = utf8 "to|"
  · have hmsg : msg = utf8 "to|" ++ msg.drop 3 := by
      rw [← ht.2, List.take_append_drop]
    obtain ⟨w, ws, hws⟩ := List.exists_cons_of_ne_nil (strings_Split_ne_nil (msg.drop 3) pipe)
    have hsplit : strings_Split msg pipe = utf8 "to" :: w :: ws := by
      rw [hmsg, strings_Split_to, hws]
    unfold HandleMessage at h
    rw [if_neg hw, if_neg hr, if_pos ht] at h
    rw [hsplit, index_one] at h
    simp only [bind, Except.bind] at h
    split at h
    · cases h
    · split at h
      · cases h
      · rename_i B hB
        cases ws with
        | nil =>
          simp [index] at h
          exact ⟨h.symm, ht.2, w, B, hsplit, hB⟩
        | cons c l =>
          rw [index_two] at h
          simp only at h
          split at h <;> cases h
  · unfold HandleMessage at h
    rw [if_neg hw, if_neg hr, if_neg ht] at h
    cases h

/-! ## Crash on a `to|` line without text -/

/-- Claim C1 fails on the code: `1.2.3.4:6` is registered, and the line `to|1.2.3.4:6`
of `1.2.3.4:5`, which has no text segment, makes `strings.Split(msg, "|")[2]` panic with
an index out of range: the split has two elements. -/
theorem HandleMessage_to_without_text_panics :
    twoUsers.OnlineMap.lookup (utf8 "1.2.3.4:6") = some 1 ∧
    strings_Split (utf8 "to|1.2.3.4:6") pipe = [utf8 "to", utf8 "1.2.3.4:6"] ∧
    HandleMessage twoUsers 0 (utf8 "to|1.2.3.4:6") = .error (.indexOutOfRange 2 2) :=
  ⟨by decide, by decide, rfl⟩

/-! ## Two live sessions under one name -/

/-- Claim C2 fails on the code: `1.2.3.4:5` joins and renames itself to `1.2.3.4:6`, then
a client with the remote address `1.2.3.4:6` joins.  `Online` overwrites the entry
without a presence test: the two sessions, neither of which has left, have the same
`Name`, and the registry maps it to the second one only. -/
theorem Online_duplicates_live_name :
    ∃ s2, HandleMessage oneUser 0 (utf8 "rename|1.2.3.4:6") = .ok s2 ∧
      (Handler_join s2 (utf8 "1.2.3.4:6")).1 = 1 ∧
      ((Handler_join s2 (utf8 "1.2.3.4:6")).2.heap 0).Addr = utf8 "1.2.3.4:5" ∧
      ((Handler_join s2 (utf8 "1.2.3.4:6")).2.heap 1).Addr = utf8 "1.2.3.4:6" ∧
      ((Handler_join s2 (utf8 "1.2.3.4:6")).2.heap 0).Name = utf8 "1.2.3.4:6" ∧
      ((Handler_join s2 (utf8 "1.2.3.4:6")).2.heap 1).Name = utf8 "1.2.3.4:6" ∧
      (Handler_join s2 (utf8 "1.2.3.4:6")).2.OnlineMap.entries = [⟨utf8 "1.2.3.4:6", 1⟩] :=
  ⟨renameFinish (renameLocked oneUser 0 (utf8 "1.2.3.4:6")) 0 (utf8 "1.2.3.4:6"), rfl,
    by decide, by decide, by decide, by decide, by decide, by decide⟩

/-! ## Two concurrent renames to one name -/

/-- The three pieces of `RenameCall.step`, run without interruption, are the `rename|`
branch of `HandleMessage`. -/
theorem runRenames_alone (s : Server) (user : UserPtr) (n : GoString) (b : RenameCall)
    (hn : n ≠ []) (hpipe : pipe ∉ n) :
    HandleMessage s user (utf8 "rename|" ++ n) =
      .ok (runRenames s ⟨user, n, 0, false⟩ b [true, true, true]).1 := by
  rw [HandleMessage_rename s user n hn, strings_Split_rename,
    strings_Split_of_not_mem n pipe hpipe, index_one]
  cases he : renameExist s n <;>
    simp [runRenames, RenameCall.step, he, bind, Except.bind]

/-- Claim C10 fails on the code: `1.2.3.4:5` and `1.2.3.4:6` both dispatch `rename|carol`
while `carol` is unused.  Line 72 reads the map before `mapLock` is taken, so both may
read `exist == false` before either enters the locked block; then both succeed: each
gets the acknowledgment, both have the `Name` `carol`, and the registry holds the
second session only. -/
theorem runRenames_both_succeed :
    twoUsers.OnlineMap.lookup (utf8 "carol") = none ∧
    (runRenames twoUsers ⟨0, utf8 "carol", 0, false⟩ ⟨1, utf8 "carol", 0, false⟩
        [true, false, true, false, true, false]).1.trace =
      twoUsers.trace ++
        [.connWrite 0 (utf8 "您已经更新用户名:carol\n"),
         .connWrite 1 (utf8 "您已经更新用户名:carol\n")] ∧
    ((runRenames twoUsers ⟨0, utf8 "carol", 0, false⟩ ⟨1, utf8 "carol", 0, false⟩
        [true, false, true, false, true, false]).1.heap 0).Name = utf8 "carol" ∧
    ((runRenames twoUsers ⟨0, utf8 "carol", 0, false⟩ ⟨1, utf8 "carol", 0, false⟩
        [true, false, true, false, true, false]).1.heap 1).Name = utf8 "carol" ∧
    (runRenames twoUsers ⟨0, utf8 "carol", 0, false⟩ ⟨1, utf8 "carol", 0, false⟩
        [true, false, true, false, true, false]).1.OnlineMap.entries = [⟨utf8 "carol", 1⟩] :=
  ⟨by decide, by decide, by decide, by decide, by decide⟩

end GoChat
